import Mathlib

/-!
Verification of the tbap JSON-to-table normalization engine and the
conditional-fetch (freshness) protocol, shallowly embedded from the Python
sources `tbap/dframe.py`, `tbap/server.py` and `tbap/api.py`.

Modelling conventions:
* Parsed JSON documents are values of the closed sum type `Tbap.Json`;
  JSON objects are ordered association lists, matching Python dict
  insertion order (`json.loads` preserves key order).
* JSON numbers are modelled as integers; no claim touches non-integer
  payloads.
* Fallible Python code (raised exceptions) is modelled with
  `Except Tbap.PyError`; each `PyError` constructor names the Python
  exception class that the corresponding code path raises.
* pandas tables are modelled by `Tbap.Table`: an ordered column list plus
  one ordered association list per row.  A missing cell is pandas `NaN`,
  modelled as `Json.null`, and read back via `Tbap.rowCell`.
-/

namespace Tbap

/-- Closed sum type for parsed JSON values (`json.loads` output):
`None | bool | int | str | list | dict` with dicts as ordered
association lists. -/
inductive Json where
  | null : Json
  | bool : Bool → Json
  | num : Int → Json
  | str : String → Json
  | arr : List Json → Json
  | obj : List (String × Json) → Json

/-- Models `isinstance(v, dict)`. -/
def Json.isObj : Json → Bool
  | .obj _ => true
  | _ => false

/-- Models `isinstance(v, list)`. -/
def Json.isArr : Json → Bool
  | .arr _ => true
  | _ => false

/-- A bare scalar JSON value: neither a dict nor a list. -/
def Json.isScalar : Json → Bool
  | .obj _ => false
  | .arr _ => false
  | _ => true

/-- The key/value pairs of a JSON object (`d.items()`); `[]` on non-objects
(callers only use it under an `isObj` guard). -/
def Json.kvs : Json → List (String × Json)
  | .obj l => l
  | _ => []

/-- The keys of a JSON object (`d.keys()`). -/
def Json.keys (j : Json) : List String := j.kvs.map Prod.fst

/-- Models `d[k]` for a JSON object, as an `Option` (`none` models `KeyError`). -/
def Json.lookup (j : Json) (k : String) : Option Json := j.kvs.lookup k

/-- Models `re.sub(" ", "_", key)`: replace every space with an underscore
(dframe.py line 13). -/
def replace_spaces (s : String) : String :=
  String.mk (s.data.map (fun c => if c = ' ' then '_' else c))

/-- The recursive worker of the Scalar Flattener
(`append_scaler`, dframe.py lines 12-27).  Returns the ordered
`(label, value)` pairs appended to `rows`:
* the label first has its spaces replaced by underscores;
* an empty dict or empty list is terminal and yields `(label, null)`;
* a non-empty dict recurses into each entry with label `label_key`;
* a non-empty list recurses into each element with label `label_idx`;
* any scalar yields `(label, value)`.
-/
def append_scaler (key : String) (val : Json) : List (String × Json) :=
  let k := replace_spaces key
  match val with
  | .obj kvs =>
      match kvs with
      | [] => [(k, Json.null)]
      | _ :: _ => append_scaler_kvs k kvs
  | .arr items =>
      match items with
      | [] => [(k, Json.null)]
      | _ :: _ => append_scaler_arr k 0 items
  | v => [(k, v)]
where
  /-- the `for subkey, subval in val.items()` loop (dframe.py lines 18-19) -/
  append_scaler_kvs (k : String) : List (String × Json) → List (String × Json)
    | [] => []
    | (sk, sv) :: rest => append_scaler (k ++ "_" ++ sk) sv ++ append_scaler_kvs k rest
  /-- the `for idx, item in enumerate(val)` loop (dframe.py lines 24-25) -/
  append_scaler_arr (k : String) (idx : Nat) : List Json → List (String × Json)
    | [] => []
    | item :: rest => append_scaler (k ++ "_" ++ toString idx) item ++ append_scaler_arr k (idx + 1) rest

/-- Python exceptions surfaced by the embedded code.  Each constructor
names the Python exception class raised by the corresponding path. -/
inductive PyError where
  /-- a Python `TypeError` (e.g. subscripting or `len()` of an `int`) -/
  | typeError
  /-- a Python `IndexError` (e.g. `jdata[0]` on an empty list or string) -/
  | indexError
  /-- a Python `KeyError` (e.g. a missing record-path or meta key) -/
  | keyError
  /-- a `ValueError` from pandas (`read_json` / `DataFrame` on unsupported input) -/
  | valueError
  /-- a Python `AttributeError` (e.g. `.items()`/`.keys()` on a non-dict) -/
  | attributeError
  /-- models `tbap.server.ArgumentError` (the spec taxonomy calls it `ConfigurationError`) -/
  | argumentError (msg : String)
  /-- a failed `assert` (the spec taxonomy calls it `InconsistentStateError`) -/
  | assertionError
  /-- models `json.JSONDecodeError`, raised explicitly by `Dframe.__init__` -/
  | jsonDecodeError (msg : String)
  /-- a Python `UnboundLocalError` (an unknown `normalize` value leaves
  `frame` unassigned in `send_request`) -/
  | unboundLocalError
deriving DecidableEq

/-- A pandas DataFrame: an ordered list of column labels plus one ordered
association list per row.  A cell absent from the association list of a row is
pandas `NaN`; `rowCell` reads it back as `Json.null`. -/
structure Table where
  cols : List String
  rows : List (List (String × Json))

/-- Reading a cell of a row: a key missing from the row is `NaN`,
modelled as `Json.null`. -/
def rowCell (row : List (String × Json)) (c : String) : Json :=
  (row.lookup c).getD Json.null

/-- Accumulate the keys of one row onto a column list, keeping first-seen
order and skipping duplicates (how pandas unions the keys of a list of
record dicts into the column index). -/
def addRowCols (acc : List String) (row : List (String × Json)) : List String :=
  row.foldl (fun a kv => if kv.1 ∈ a then a else a ++ [kv.1]) acc

/-- The column index of a DataFrame built from a list of record dicts:
the union of the keys of all rows in first-seen order. -/
def colUnion (rows : List (List (String × Json))) : List String :=
  rows.foldl addRowCols []

/-- Python dict assignment `d[k] = v` on an ordered association list:
overwrite in place when the key exists, append otherwise. -/
def dictInsert (row : List (String × Json)) (k : String) (v : Json) : List (String × Json) :=
  if row.any (fun kv => kv.1 = k) then
    row.map (fun kv => if kv.1 = k then (k, v) else kv)
  else row ++ [(k, v)]

/-- One row of `pandas.DataFrame(records)` for a single record:
* a dict record keeps its keys as column labels;
* a list record gets positional integer column labels `0, 1, ...`
  (pandas integer labels rendered as their decimal strings);
* a scalar record goes into the single positional column `0`. -/
def recordRow : Json → List (String × Json)
  | .obj kvs => kvs
  | .arr items => items.enum.map (fun p => (toString p.1, p.2))
  | v => [("0", v)]

/-- Models `pandas.DataFrame(records)` on a homogeneous list of records (all
dicts, all lists, or all scalars); pandas raises `ValueError`/`TypeError`
on dict/non-dict mixtures, modelled as `valueError`.  Columns are the
first-seen union of row keys; cells a row lacks are `NaN`. -/
def mkDataFrame (recs : List Json) : Except PyError Table :=
  if recs.all Json.isObj || recs.all Json.isArr || recs.all Json.isScalar then
    let rows := recs.map recordRow
    .ok ⟨colUnion rows, rows⟩
  else .error .valueError

/-- pandas `nested_to_record` with separator `"."`: flatten nested dict
values into dotted key paths, depth first; keys at level 0 are not
prefixed; non-dict values (including lists) are kept whole.  An empty
dict value vanishes (pandas updates with the empty flattened dict).
Within-row key order and collisions between a dotted path and a
pre-existing literal dotted key are not observed by any claim
(pandas would move flattened keys to the end and let the later write
win). -/
def nested_to_record (pre : String) (lvl : Nat) : List (String × Json) → List (String × Json)
  | [] => []
  | (k, v) :: rest =>
    let newKey := if lvl = 0 then k else pre ++ "." ++ k
    (match v with
     | .obj kvs2 => nested_to_record newKey (lvl + 1) kvs2
     | w => [(newKey, w)]) ++ nested_to_record pre lvl rest

/-- Models `pandas.io.json.json_normalize(docs)` without a record path: every
document is flattened with `nested_to_record` and the flattened dicts
become the rows.  (pandas skips the flattening pass when no document has
a dict value, but on such documents `nested_to_record` is the identity,
so flattening unconditionally is extensionally the same.)  A non-dict
document raises `AttributeError` from the `.values()` probe. -/
def json_normalize_flat (docs : List Json) : Except PyError Table :=
  if docs.all Json.isObj then
    let rows := docs.map (fun d => nested_to_record "" 0 d.kvs)
    .ok ⟨colUnion rows, rows⟩
  else .error .attributeError

/-- Models `_pull_field(obj, rp)` followed by `len(recs)` and `records.extend(recs)`
for one document of `json_normalize(..., record_path=[rp])`:
* a missing key raises `KeyError`; a non-dict document raises `TypeError`;
* a list field contributes its elements as records;
* a string field is iterable: it contributes its characters as records;
* a dict field is iterable: it contributes its keys as records;
* any other field raises `TypeError` at `len(recs)`. -/
def pullRecords (rp : String) (doc : Json) : Except PyError (List Json) :=
  match doc with
  | .obj kvs =>
      match kvs.lookup rp with
      | some (Json.arr recs) => .ok recs
      | some (Json.str s) => .ok (s.data.map (fun c => Json.str (String.mk [c])))
      | some (Json.obj kvs2) => .ok (kvs2.map (fun kv => Json.str kv.1))
      | some _ => .error .typeError
      | none => .error .keyError
  | _ => .error .typeError

/-- Models `_pull_field(obj, m)` for a meta key with `errors="raise"`:
the value of the document at `m`, `KeyError` when absent. -/
def pullMeta (m : String) (doc : Json) : Except PyError Json :=
  match doc.lookup m with
  | some v => .ok v
  | none => .error .keyError

/-- The meta values of one document, pulled in meta-key order
(the `for val, key in zip(meta, meta_keys)` loop). -/
def pullMetas (meta : List String) (doc : Json) :
    Except PyError (List (String × Json)) :=
  match meta with
  | [] => .ok []
  | m :: rest => do
    let v ← pullMeta m doc
    let tail ← pullMetas rest doc
    pure ((m, v) :: tail)

/-- The per-document extraction loop of `json_normalize` with a record
path (`_recursive_extract`): for each document in order, pull its record
list and then its meta values. -/
def extractDocs (rp : String) (meta : List String) :
    List Json → Except PyError (List (List Json × List (String × Json)))
  | [] => .ok []
  | doc :: rest => do
    let recs ← pullRecords rp doc
    let mpairs ← pullMetas meta doc
    let tail ← extractDocs rp meta rest
    pure ((recs, mpairs) :: tail)

/-- Appending a column label to the column index if it is new
(what an assignment to a fresh column does to the index). -/
def addCol (cs : List String) (k : String) : List String :=
  if k ∈ cs then cs else cs ++ [k]

/-- pandas column assignment `result[k] = vals`: append the column label
if new, and write the `i`-th value into the `i`-th row. -/
def tableAssign (t : Table) (k : String) (vals : List Json) : Table :=
  ⟨addCol t.cols k, t.rows.zipWith (fun row v => dictInsert row k v) vals⟩

/-- Models `pandas.io.json.json_normalize(docs, record_path=[rp], meta=meta)`:
per document (in order) pull the record list and the meta values; build
`DataFrame(records)` from the concatenated records; then assign one
column per meta key, its value repeated over the rows contributed by the
owning document (`np.array(v).repeat(lengths)`). -/
def json_normalize_rp (docs : List Json) (rp : String) (meta : List String) :
    Except PyError Table := do
  let extracted ← extractDocs rp meta docs
  let t ← mkDataFrame (extracted.map Prod.fst).flatten
  pure (meta.foldl (fun t k =>
    tableAssign t k (extracted.flatMap
      (fun e => e.1.map (fun _ => ((e.2.lookup k).getD Json.null))))) t)

/-- Models `dframe.drop(val, axis=1, inplace=True)`: remove a column and its
cells. -/
def dropCol (t : Table) (v : String) : Table :=
  ⟨t.cols.filter (fun x => x ≠ v),
   t.rows.map (fun row => row.filter (fun kv => kv.1 ≠ v))⟩

/-- The key classification of `build_table` (dframe.py lines 43-59):
each key of the first document sorted into scalar / dict / list buckets
in iteration order. -/
structure KeyClasses where
  scaler_cols : List String
  dict_cols : List String
  list_cols : List String

/-- dframe.py lines 52-59: classify the keys of the first document. -/
def classify (kvs : List (String × Json)) : KeyClasses :=
  { scaler_cols := (kvs.filter (fun kv => kv.2.isScalar)).map Prod.fst
    dict_cols := (kvs.filter (fun kv => kv.2.isObj)).map Prod.fst
    list_cols := (kvs.filter (fun kv => kv.2.isArr)).map Prod.fst }

/-- The branch dispatch of `build_table` (dframe.py lines 43-74) once the
document list `docs` (first element `first`) is in hand:
* exactly one list-classified key: `json_normalize` with that key as the
  record path and the scalar keys as meta;
* otherwise, any dict-classified key: flat `json_normalize`, then drop
  each dict-classified column still present;
* otherwise: plain `DataFrame` of the documents.  (The last two of the source
  branches, `read_json(jtxt)` and `read_json(jtxt, orient="records")`,
  both parse the same array text back and build `DataFrame` of the
  loaded list, so they are modelled by the one `mkDataFrame`.) -/
def build_table_docs (docs : List Json) (first : Json) : Except PyError Table :=
  let c := if first.isObj then classify first.kvs else ⟨[], [], []⟩
  if c.list_cols.length = 1 then
    json_normalize_rp docs (c.list_cols.headD "") c.scaler_cols
  else if c.dict_cols ≠ [] then do
    let t ← json_normalize_flat docs
    pure (c.dict_cols.foldl (fun t v => if v ∈ t.cols then dropCol t v else t) t)
  else
    mkDataFrame docs

/-- The Table Normalizer entry point (`build_table`, dframe.py lines
40-74) on the parsed response text:
* a single dict is wrapped into a one-element list (lines 48-50);
* `None`, a bool or a number is not subscriptable: `jdata[0]` raises
  `TypeError`;
* an empty string or empty list: `jdata[0]` raises `IndexError`;
* a non-empty string: classification is skipped (a character is not a
  dict) and `read_json` of the quoted scalar raises `ValueError` in the
  `DataFrame` constructor. -/
def build_table (j : Json) : Except PyError Table :=
  match j with
  | .null | .bool _ | .num _ => .error .typeError
  | .str s => if s.data = [] then .error .indexError else .error .valueError
  | .obj kvs => build_table_docs [Json.obj kvs] (Json.obj kvs)
  | .arr [] => .error .indexError
  | .arr (d :: ds) => build_table_docs (d :: ds) d

/-- The Scalar Flattener entry point (`build_single_column`,
dframe.py lines 8-37) restricted to its observable output: the ordered
`(label, value)` sequence accumulated in `rows`.  The `series=False` /
`series=True` materializations package exactly this sequence (as a
label-indexed one-column frame or a Series); no claim observes anything
beyond the sequence.  The input must be a JSON object
(`jdata.items()`); a non-object input raises `AttributeError`. -/
def build_single_column (jdata : Json) : Except PyError (List (String × Json)) :=
  match jdata with
  | .obj kvs => .ok (kvs.flatMap (fun p => append_scaler p.1 p.2))
  | _ => .error .attributeError

/-! ## HTTP date parsing (`httpdate_to_datetime`, server.py lines 37-73)

The source defers to `datetime.datetime.strptime` with the format
`"%a, %d %b %Y %H:%M:%S %Z"` (`"%a, %d %b %Y %H:%M:%S"` when `gmt` is
false) and returns `False` after a `UserWarning` when parsing raises
`ValueError`.  The stdlib collaborator is modelled to the fidelity the
claims observe: whitespace between fields matches one or more spaces
(Python also accepts tabs/newlines, never supplied here), `%a`/`%b`/`%Z`
match their abbreviated names case-insensitively, `%d`/`%H`/`%M`/`%S`
take one or two digits, `%Y` exactly four, `%Z` accepts `GMT`/`UTC`
(platform-local zone names are not modelled), and the subsequent
`datetime(...)` construction rejects out-of-range fields (day beyond the
length of the month, second 60/61, year 0), which the `except` in the source
also turns into `False`. -/

/-- A parsed `datetime.datetime`; `gmt` records the
`replace(tzinfo=GMT)` step. -/
structure Dtm where
  year : Nat
  month : Nat
  day : Nat
  hour : Nat
  minute : Nat
  second : Nat
  gmt : Bool
deriving DecidableEq

/-- ASCII lowercase of a string (strptime matches names
case-insensitively). -/
def lowercase (s : String) : String :=
  String.mk (s.data.map Char.toLower)

/-- Split on a separator character, keeping empty pieces (the semantics
of the Python `str.split(sep)` with an explicit separator). -/
def splitChar (sep : Char) (s : String) : List String :=
  go s.data []
where
  go : List Char → List Char → List String
    | [], acc => [String.mk acc.reverse]
    | c :: rest, acc =>
        if c = sep then String.mk acc.reverse :: go rest []
        else go rest (c :: acc)

/-- The numeric value of a digit string. -/
def digitsToNat (cs : List Char) : Nat :=
  cs.foldl (fun n c => n * 10 + (c.toNat - 48)) 0

/-- A field of at most `maxLen` digits, as a number. -/
def parseNatLe (s : String) (maxLen : Nat) : Option Nat :=
  if s.data ≠ [] && s.data.length ≤ maxLen && s.data.all (fun c => c.isDigit) then
    some (digitsToNat s.data)
  else none

/-- Field `%b`: abbreviated month name to month number. -/
def monthNum (s : String) : Option Nat :=
  match lowercase s with
  | "jan" => some 1
  | "feb" => some 2
  | "mar" => some 3
  | "apr" => some 4
  | "may" => some 5
  | "jun" => some 6
  | "jul" => some 7
  | "aug" => some 8
  | "sep" => some 9
  | "oct" => some 10
  | "nov" => some 11
  | "dec" => some 12
  | _ => none

/-- Field `%a,`: an abbreviated weekday name directly followed by the literal
comma. -/
def weekdayTokenOk (t : String) : Bool :=
  match t.data.reverse with
  | ',' :: rest =>
      ["mon", "tue", "wed", "thu", "fri", "sat", "sun"].contains
        (lowercase (String.mk rest.reverse))
  | _ => false

def isLeapYear (y : Nat) : Bool :=
  y % 4 = 0 && (y % 100 ≠ 0 || y % 400 = 0)

def daysInMonth (y m : Nat) : Nat :=
  if m = 2 then (if isLeapYear y then 29 else 28)
  else if m = 4 || m = 6 || m = 9 || m = 11 then 30 else 31

/-- Field `%H:%M:%S` with the literal colons; strptime accepts hours 0-23,
minutes 0-59, seconds 0-61. -/
def parseTimeToken (s : String) : Option (Nat × Nat × Nat) :=
  match splitChar ':' s with
  | [h, m, sec] => do
    let hv ← parseNatLe h 2
    let mv ← parseNatLe m 2
    let sv ← parseNatLe sec 2
    if hv ≤ 23 && mv ≤ 59 && sv ≤ 61 then some (hv, mv, sv) else none
  | _ => none

/-- Split into whitespace-separated fields; leading or trailing
whitespace makes the whole parse fail (the strptime pattern is anchored
at both ends). -/
def tokenizeHttpDate (s : String) : Option (List String) :=
  let parts := splitChar ' ' s
  if parts.head? = some "" || parts.getLast? = some "" then none
  else some (parts.filter (fun t => t ≠ ""))

/-- The final `datetime(...)` construction from the matched fields:
out-of-range combinations raise `ValueError`, which
`httpdate_to_datetime` turns into `False`. -/
def mkDtm (dTok mTok yTok tTok : String) (gmt : Bool) : Option Dtm := do
  let d ← parseNatLe dTok 2
  let m ← monthNum mTok
  let y ← parseNatLe yTok 4
  if yTok.data.length ≠ 4 then none else
  let t ← parseTimeToken tTok
  if 1 ≤ y && 1 ≤ d && d ≤ daysInMonth y m && t.2.2 ≤ 59 then
    some ⟨y, m, d, t.1, t.2.1, t.2.2, gmt⟩
  else none

/-- Embeds `httpdate_to_datetime` (server.py lines 37-73): `some dtm` models a
returned datetime (truthy); `none` models the `ValueError` path, which
issues a `UserWarning` and returns `False` (falsy). -/
def httpdate_to_datetime (http_date : String) (gmt : Bool) : Option Dtm :=
  match tokenizeHttpDate http_date with
  | none => none
  | some toks =>
    match gmt, toks with
    | true, [wdTok, dTok, mTok, yTok, tTok, zTok] =>
        if weekdayTokenOk wdTok &&
            (lowercase zTok = "utc" || lowercase zTok = "gmt") then
          mkDtm dTok mTok yTok tTok true
        else none
    | false, [wdTok, dTok, mTok, yTok, tTok] =>
        if weekdayTokenOk wdTok then mkDtm dTok mTok yTok tTok false else none
    | _, _ => none

/-! ## The freshness protocol: request side
(`send_http_request_old`, server.py lines 178-265) -/

/-- The `UserWarning` message issued by `httpdate_to_datetime` when its
argument is not a valid HTTP date (server.py lines 62-67, abridged). -/
def httpdateWarning : String :=
  "Incorrect date-time format passed as argument. Argument has been ignored."

/-- The request-building phase of `send_http_request_old` (server.py
lines 216-237): argument validation and header assembly for the
freshness protocol.  Returns the assembled header list together with the
`UserWarning` messages issued, or `ArgumentError` when both conditional
timestamps are supplied.  The `Authorization` value (base64 of
`username:key`, a stdlib collaborator) is passed in uninterpreted as
`auth_token`; the network call and response postprocessing
(lines 239-265) belong to the transport collaborator. -/
def send_http_request_old (data_format : String) (auth_token : String)
    (mod_since : Option String) (only_mod_since : Option String) :
    Except PyError (List (String × String) × List String) :=
  if mod_since.isSome && only_mod_since.isSome then
    .error (.argumentError
      "Cannot specify both mod_since and only_mod_since arguments.")
  else
    let format_header :=
      if data_format = "xml" then "application/xml"
      else "application/schedule.json"
    let hdrs0 := [("Accept", format_header), ("Authorization", auth_token)]
    let step1 :=
      match mod_since with
      | some s =>
          match httpdate_to_datetime s true with
          | some _ => (hdrs0 ++ [("If-Modified-Since", s)], ([] : List String))
          | none => (hdrs0, [httpdateWarning])
      | none => (hdrs0, ([] : List String))
    let step2 :=
      match only_mod_since with
      | some s =>
          match httpdate_to_datetime s true with
          | some _ => (step1.1 ++ [("FMS-OnlyModifiedSince", s)], step1.2)
          | none => (step1.1, step1.2 ++ [httpdateWarning])
      | none => step1
    .ok step2

/-! ## The freshness protocol: response side, and attribute attachment -/

/-- The response dictionary assembled by `send_http_request` (server.py
lines 129-137): `code`, `text` (modelled after `json.loads`, a stdlib
collaborator), `url`, `args`, and one entry per HTTP response header. -/
structure HttpResponse where
  code : Int
  text : Json
  url : String
  args : List String
  headers : List (String × String)

/-- A value stored in the response dictionary. -/
inductive RVal where
  | int (n : Int)
  | str (s : String)
  | json (j : Json)
  | args (l : List String)

/-- The response dictionary as the ordered key/value sequence that
`response.items()` yields. -/
def respFields (r : HttpResponse) : List (String × RVal) :=
  [("code", RVal.int r.code), ("text", RVal.json r.text),
   ("url", RVal.str r.url), ("args", RVal.args r.args)]
  ++ r.headers.map (fun kv => (kv.1, RVal.str kv.2))

/-- A table together with its attached metadata record (the source sets
`dframe.attr`; the spec calls the composition `TableMetadata`). -/
structure AttrTable where
  table : Table
  attr : List (String × RVal)

/-- Embeds `attach_attributes` (server.py lines 346-351): copy every response
entry except `"text"` into the `attr` metadata record of the table.  The
table data (columns and rows) is not touched, and the response is only
read. -/
def attach_attributes (dframe : Table) (response : HttpResponse) : AttrTable :=
  ⟨dframe, (respFields response).filter (fun kv => kv.1 ≠ "text")⟩

/-- Models `frame.set_index(index, inplace=True)` wrapped in
`try/except KeyError: pass` (api.py lines 852-856): when every requested
column exists, move those columns out of the data columns (they become
the index, which no claim observes); otherwise leave the frame
unchanged. -/
def set_index_try (t : Table) (index : List String) : Table :=
  if index.all (fun c => c ∈ t.cols) then
    ⟨t.cols.filter (fun c => c ∉ index),
     t.rows.map (fun row => row.filter (fun kv => kv.1 ∉ index))⟩
  else t

/-- Models `pandas.DataFrame(rows).set_index(["label"])` for the Scalar
Flattener long format: a `value` column indexed by `label`. -/
def singleColumnTable (pairs : List (String × Json)) : Table :=
  set_index_try
    ⟨["label", "value"],
     pairs.map (fun p => [("label", Json.str p.1), ("value", p.2)])⟩
    ["label"]

/-- The result of `send_request`: either the raw response dictionary
passed through unchanged, or a shaped table with attached metadata, or a
raised exception. -/
inductive SendResult where
  | raw (response : HttpResponse)
  | frame (result : AttrTable)
  | error (e : PyError)

/-- Embeds `send_request` (api.py lines 820-857) downstream of the HTTP call:
any response whose `code` is not 200 — and any non-dataframe session —
is returned unchanged; otherwise the text is shaped by the requested
normalizer, the optional index applied, and the metadata attached.
An unknown `normalize` value leaves `frame` unbound
(`UnboundLocalError`). -/
def send_request (data_format : String) (http_response : HttpResponse)
    (normalize : String) (index : Option (List String)) : SendResult :=
  if data_format ≠ "dataframe" || http_response.code ≠ 200 then
    .raw http_response
  else
    let frameE : Except PyError Table :=
      if normalize = "table" then build_table http_response.text
      else if normalize = "single_column" then
        (build_single_column http_response.text).map singleColumnTable
      else .error .unboundLocalError
    match frameE with
    | .error e => .error e
    | .ok frame =>
        let frame :=
          match index with
          | some idx => set_index_try frame idx
          | none => frame
        .frame (attach_attributes frame http_response)

/-- The routing result of a per-endpoint function. -/
inductive MatchesResult where
  | raw (response : HttpResponse)
  | shaped

/-- The passthrough guard of `get_matches` (api.py lines 337-339): a
response whose `code` is not 200 (or a non-dataframe session) is
returned unchanged; `shaped` marks continuation into the
match-extraction shaping (api.py lines 341-391), which no claim
consults. -/
def get_matches_route (data_format : String) (http_data : HttpResponse) :
    MatchesResult :=
  if data_format ≠ "dataframe" || http_data.code ≠ 200 then .raw http_data
  else .shaped

/-! ## `Dframe.__init__`: the "not modified" branch
(server.py lines 373-403) -/

/-- The fields of the response dictionary consulted by the
"not modified" branch of `Dframe.__init__` (built by
`send_http_request_old`, lines 248-264: a 304 carries `text = None` and
records the two conditional-timestamp arguments of the caller). -/
structure Response304 where
  code : Int
  text : Option String
  mod_since : Option String
  only_mod_since : Option String
deriving DecidableEq

/-- The outcome of `Dframe.__init__` on a response dictionary. -/
inductive DframeResult where
  /-- the synthetic one-row "no recent changes" frame, with the response
  bound as `_attr` -/
  | notModified (frame : Table) (attr : Response304)
  /-- execution continues into the JSON-conversion path (server.py lines
  405-453), a superseded variant of the Table Normalizer that no claim
  consults -/
  | jsonPath
  | error (e : PyError)

/-- The "not modified" branch of `Dframe.__init__` (server.py lines
392-403): on a 304 response with no body, build a one-row frame whose
single column is named after the conditional header that fired, valued
at the echoed timestamp; `mod_since` is checked first, and when neither
timestamp is recorded the `assert` fails (`AssertionError`, named
`InconsistentStateError` by the spec). -/
def Dframe_init (response : Response304) : DframeResult :=
  if response.code = 304 ∧ response.text = none then
    match response.mod_since with
    | some ts =>
        .notModified
          ⟨["If-Modified-Since"], [[("If-Modified-Since", Json.str ts)]]⟩
          response
    | none =>
        match response.only_mod_since with
        | some ts =>
            .notModified
              ⟨["FMS-OnlyModifiedSince"],
               [[("FMS-OnlyModifiedSince", Json.str ts)]]⟩
              response
        | none => .error .assertionError
  else .jsonPath

/-! ## Derived descriptions used by the verification statements -/

/-- The key list of a row. -/
def rowKeys (row : List (String × Json)) : List String := row.map Prod.fst

/-- The key classification `build_table` derives from the first
document. -/
def headClasses : List Json → KeyClasses
  | [] => ⟨[], [], []⟩
  | d :: _ => if d.isObj then classify d.kvs else ⟨[], [], []⟩

/-- The rows one document contributes in the record-path branch: its
records in order, each extended with the value of the document at every meta
key. -/
def docRowsRP (rp : String) (meta : List String) (doc : Json) :
    List (List (String × Json)) :=
  match pullRecords rp doc with
  | .ok recs => recs.map (fun rec =>
      meta.foldl
        (fun row m => dictInsert row m ((doc.lookup m).getD Json.null))
        (recordRow rec))
  | .error _ => []

/-- The rows one document contributes to a `build_table` result, by
branch of the dispatch. -/
def docRowBlock (c : KeyClasses) (doc : Json) : List (List (String × Json)) :=
  if c.list_cols.length = 1 then
    docRowsRP (c.list_cols.headD "") c.scaler_cols doc
  else if c.dict_cols ≠ [] then
    [(nested_to_record "" 0 doc.kvs).filter (fun kv => kv.1 ∉ c.dict_cols)]
  else [recordRow doc]

/-! ## Concrete sample inputs used by witnesses and counterexamples -/

/-- The example payload of the spec: `{"teams": [{"id":1,"name":"A"},
{"id":2,"name":"B","note":"x"}]}` (its inner list). -/
def teamsElems : List Json :=
  [Json.obj [("id", Json.num 1), ("name", Json.str "A")],
   Json.obj [("id", Json.num 2), ("name", Json.str "B"), ("note", Json.str "x")]]

/-- A small data table. -/
def sampleTable : Table := ⟨["x"], [[("x", Json.num 1)]]⟩

/-- A 403 response dictionary. -/
def resp403 : HttpResponse :=
  ⟨403, Json.str "err", "http://api/x", ["status"], [("Last-Modified", "LM")]⟩

/-- A 200 response dictionary carrying the example payload of the spec. -/
def resp200 : HttpResponse :=
  ⟨200, Json.obj [("teams", Json.arr teamsElems)], "http://api/teams", ["teams"],
   [("Last-Modified", "LM")]⟩

/-- A 304 response with only `mod_since` recorded. -/
def notMod304 : Response304 :=
  ⟨304, none, some "Sun, 01 Jan 2017 00:00:00 GMT", none⟩

/-- A 304 response with both conditional timestamps recorded. -/
def bothSet304 : Response304 := ⟨304, none, some "A", some "B"⟩

/-- A 304 response with neither conditional timestamp recorded. -/
def neither304 : Response304 := ⟨304, none, none, none⟩

/-- The header name of the conditional timestamp `Dframe.__init__`
reads first (`mod_since` takes precedence). -/
def conditional_header (resp : Response304) : String :=
  if resp.mod_since.isSome then "If-Modified-Since" else "FMS-OnlyModifiedSince"

/-- `[{"a": 1, "b": []}]`: one document whose single list-classified key
holds no records. -/
def emptyRecordDocs : List Json :=
  [Json.obj [("a", Json.num 1), ("b", Json.arr [])]]

/-- `[{"a": 7, "b": [{"x": 1}, {"x": 2}]}]`: one document with a
broadcast scalar key and a two-record path. -/
def rpDocs : List Json :=
  [Json.obj [("a", Json.num 7),
             ("b", Json.arr [Json.obj [("x", Json.num 1)],
                             Json.obj [("x", Json.num 2)]])]]

/-! ## Association-list and column-union lemmas -/

theorem lookup_eq_none_of_not_mem {row : List (String × Json)} {c : String}
    (h : c ∉ rowKeys row) : row.lookup c = none := by
  induction row with
  | nil => rfl
  | cons kv rest ih =>
      simp only [rowKeys, List.map_cons, List.mem_cons] at h
      push_neg at h
      simp only [List.lookup]
      have hne : (c == kv.1) = false := by simpa using h.1
      rw [hne]
      exact ih (by simpa [rowKeys] using h.2)

theorem mem_addRowCols {c : String} (row : List (String × Json))
    (acc : List String) :
    c ∈ addRowCols acc row ↔ c ∈ acc ∨ c ∈ rowKeys row := by
  induction row generalizing acc with
  | nil => simp [addRowCols, rowKeys]
  | cons kv rest ih =>
      simp only [addRowCols, List.foldl_cons] at *
      rw [ih]
      by_cases hk : kv.1 ∈ acc
      · simp only [if_pos hk, rowKeys, List.map_cons, List.mem_cons]
        constructor
        · rintro (h | h)
          · exact Or.inl h
          · exact Or.inr (Or.inr h)
        · rintro (h | h | h)
          · exact Or.inl h
          · exact Or.inl (h ▸ hk)
          · exact Or.inr h
      · simp only [if_neg hk, rowKeys, List.map_cons, List.mem_cons,
          List.mem_append, List.mem_singleton]
        tauto

theorem mem_colUnion {c : String} (rows : List (List (String × Json))) :
    c ∈ colUnion rows ↔ ∃ row ∈ rows, c ∈ rowKeys row := by
  have main : ∀ (rs : List (List (String × Json))) (acc : List String),
      c ∈ rs.foldl addRowCols acc ↔ c ∈ acc ∨ ∃ row ∈ rs, c ∈ rowKeys row := by
    intro rs
    induction rs with
    | nil => simp
    | cons r rest ih =>
        intro acc
        simp only [List.foldl_cons]
        rw [ih, mem_addRowCols]
        simp only [List.mem_cons]
        constructor
        · rintro ((h | h) | ⟨row, hrow, hc⟩)
          · exact Or.inl h
          · exact Or.inr ⟨r, Or.inl rfl, h⟩
          · exact Or.inr ⟨row, Or.inr hrow, hc⟩
        · rintro (h | ⟨row, (rfl | hrow), hc⟩)
          · exact Or.inl (Or.inl h)
          · exact Or.inl (Or.inr hc)
          · exact Or.inr ⟨row, hrow, hc⟩
  simpa using main rows []

theorem rowKeys_dictInsert (row : List (String × Json)) (k : String) (v : Json) :
    rowKeys (dictInsert row k v) =
      if k ∈ rowKeys row then rowKeys row else rowKeys row ++ [k] := by
  have hmem : (row.any (fun kv => kv.1 = k)) = true ↔ k ∈ rowKeys row := by
    rw [List.any_eq_true]
    simp only [decide_eq_true_eq, rowKeys, List.mem_map]
  by_cases hk : k ∈ rowKeys row
  · rw [if_pos hk]
    unfold dictInsert
    rw [if_pos (hmem.mpr hk)]
    unfold rowKeys
    rw [List.map_map]
    apply List.map_congr_left
    intro kv _
    by_cases h1 : kv.1 = k <;> simp [h1]
  · rw [if_neg hk]
    unfold dictInsert
    rw [if_neg (by rw [hmem]; exact hk)]
    simp [rowKeys]

theorem mem_rowKeys_dictInsert {c : String} (row : List (String × Json))
    (k : String) (v : Json) :
    c ∈ rowKeys (dictInsert row k v) ↔ c ∈ rowKeys row ∨ c = k := by
  rw [rowKeys_dictInsert]
  by_cases hk : k ∈ rowKeys row
  · rw [if_pos hk]
    constructor
    · exact Or.inl
    · rintro (h | rfl)
      · exact h
      · exact hk
  · rw [if_neg hk]
    simp

theorem mem_rowKeys_metaFold {c : String} (ms : List String)
    (g : String → Json) (row : List (String × Json)) :
    c ∈ rowKeys (ms.foldl (fun r m => dictInsert r m (g m)) row) ↔
      c ∈ rowKeys row ∨ c ∈ ms := by
  induction ms generalizing row with
  | nil => simp
  | cons m rest ih =>
      simp only [List.foldl_cons]
      rw [ih, mem_rowKeys_dictInsert]
      simp only [List.mem_cons]
      tauto

theorem mem_foldl_addCol {c : String} (ms : List String) (cs : List String) :
    c ∈ ms.foldl addCol cs ↔ c ∈ cs ∨ c ∈ ms := by
  induction ms generalizing cs with
  | nil => simp
  | cons m rest ih =>
      simp only [List.foldl_cons]
      rw [ih]
      unfold addCol
      by_cases hm : m ∈ cs
      · rw [if_pos hm]
        simp only [List.mem_cons]
        constructor
        · rintro (h | h)
          · exact Or.inl h
          · exact Or.inr (Or.inr h)
        · rintro (h | rfl | h)
          · exact Or.inl h
          · exact Or.inl hm
          · exact Or.inr h
      · rw [if_neg hm]
        simp only [List.mem_append, List.mem_singleton, List.mem_cons]
        tauto

theorem foldl_congr_mem {α β : Type} {l : List α} {f g : β → α → β} {b : β}
    (h : ∀ x ∈ l, ∀ acc, f acc x = g acc x) : l.foldl f b = l.foldl g b := by
  induction l generalizing b with
  | nil => rfl
  | cons a rest ih =>
      simp only [List.foldl_cons]
      rw [h a (by simp)]
      exact ih (fun x hx acc => h x (by simp [hx]) acc)

/-! ## The meta-column assignment fold -/

theorem zipWith_map_both {α β γ δ : Type} (f : β → γ → δ) (F : α → β)
    (G : α → γ) (l : List α) :
    List.zipWith f (l.map F) (l.map G) = l.map (fun a => f (F a) (G a)) := by
  induction l with
  | nil => rfl
  | cons a rest ih => simp [ih]

theorem zipWith_insert_blocks (E : List (List Json × List (String × Json)))
    (F : List Json × List (String × Json) → Json → List (String × Json))
    (k : String) (g : List Json × List (String × Json) → Json) :
    List.zipWith (fun row v => dictInsert row k v)
      (E.flatMap (fun e => e.1.map (F e)))
      (E.flatMap (fun e => e.1.map (fun _ => g e)))
    = E.flatMap (fun e => e.1.map (fun rec => dictInsert (F e rec) k (g e))) := by
  induction E with
  | nil => rfl
  | cons e rest ih =>
      simp only [List.flatMap_cons]
      rw [List.zipWith_append _ _ _ _ _ (by simp), ih,
        zipWith_map_both (fun row v => dictInsert row k v) (F e) (fun _ => g e) e.1]

theorem assign_fold (meta : List String)
    (E : List (List Json × List (String × Json)))
    (F : List Json × List (String × Json) → Json → List (String × Json))
    (cs : List String) :
    meta.foldl
      (fun t k => tableAssign t k (E.flatMap
        (fun e => e.1.map (fun _ => ((e.2.lookup k).getD Json.null)))))
      ⟨cs, E.flatMap (fun e => e.1.map (F e))⟩
    = ⟨meta.foldl addCol cs,
       E.flatMap (fun e => e.1.map (fun rec =>
         meta.foldl
           (fun row m => dictInsert row m ((e.2.lookup m).getD Json.null))
           (F e rec)))⟩ := by
  induction meta generalizing F cs with
  | nil => simp
  | cons k rest ih =>
      simp only [List.foldl_cons, tableAssign]
      rw [zipWith_insert_blocks E F k (fun e => (e.2.lookup k).getD Json.null)]
      exact ih (fun e rec => dictInsert (F e rec) k ((e.2.lookup k).getD Json.null))
        (addCol cs k)

/-! ## Characterizing the extraction loop -/

theorem pullMeta_ok {m : String} {doc : Json} {v : Json}
    (h : pullMeta m doc = .ok v) : doc.lookup m = some v := by
  unfold pullMeta at h
  cases hl : doc.lookup m with
  | none => rw [hl] at h; exact absurd h (by simp)
  | some w => rw [hl] at h; simp only [Except.ok.injEq] at h; rw [h]

theorem pullMetas_ok {meta : List String} {doc : Json} :
    ∀ {mp}, pullMetas meta doc = .ok mp →
      mp = meta.map (fun m => (m, (doc.lookup m).getD Json.null)) := by
  induction meta with
  | nil =>
      intro mp h
      simp only [pullMetas, Except.ok.injEq] at h
      simp [h.symm]
  | cons m rest ih =>
      intro mp h
      unfold pullMetas at h
      cases hm : pullMeta m doc with
      | error e =>
          rw [hm] at h
          simp only [bind, Except.bind] at h
          exact Except.noConfusion h
      | ok v =>
          rw [hm] at h
          simp only [bind, Except.bind] at h
          cases hr : pullMetas rest doc with
          | error e =>
              rw [hr] at h
              simp only [Except.bind] at h
              exact Except.noConfusion h
          | ok tail =>
              rw [hr] at h
              simp only [Except.bind, pure, Except.pure, Except.ok.injEq] at h
              rw [← h, List.map_cons, ← ih hr, pullMeta_ok hm]
              rfl

theorem lookup_map_pair (meta : List String) (f : String → Json) (k : String)
    (hk : k ∈ meta) :
    (meta.map (fun m => (m, f m))).lookup k = some (f k) := by
  induction meta with
  | nil => cases hk
  | cons m rest ih =>
      simp only [List.map_cons, List.lookup]
      by_cases h : k = m
      · subst h
        simp
      · have hb : (k == m) = false := by simpa using h
        rw [hb]
        exact ih ((List.mem_cons.mp hk).resolve_left h)

theorem extract_flatMap_congr {rp : String} {meta : List String} :
    ∀ {docs : List Json} {ex}, extractDocs rp meta docs = .ok ex →
      ∀ (G : List Json × List (String × Json) → List (List (String × Json)))
        (H : Json → List (List (String × Json))),
        (∀ doc recs mp, pullRecords rp doc = .ok recs →
          pullMetas meta doc = .ok mp → G (recs, mp) = H doc) →
        ex.flatMap G = docs.flatMap H := by
  intro docs
  induction docs with
  | nil =>
      intro ex h G H _
      simp only [extractDocs, Except.ok.injEq] at h
      simp [← h]
  | cons doc rest ih =>
      intro ex h G H hGH
      unfold extractDocs at h
      cases h1 : pullRecords rp doc with
      | error e =>
          rw [h1] at h
          simp only [bind, Except.bind] at h
          exact Except.noConfusion h
      | ok recs =>
          rw [h1] at h
          simp only [bind, Except.bind] at h
          cases h2 : pullMetas meta doc with
          | error e =>
              rw [h2] at h
              simp only [Except.bind] at h
              exact Except.noConfusion h
          | ok mp =>
              rw [h2] at h
              simp only [Except.bind] at h
              cases h3 : extractDocs rp meta rest with
              | error e =>
                  rw [h3] at h
                  simp only [Except.bind] at h
                  exact Except.noConfusion h
              | ok tail =>
                  rw [h3] at h
                  simp only [Except.bind, pure, Except.pure, Except.ok.injEq] at h
                  rw [← h, List.flatMap_cons, List.flatMap_cons,
                    hGH doc recs mp h1 h2, ih h3 G H hGH]

theorem flatten_map_recordRow (ex : List (List Json × List (String × Json))) :
    ((ex.map Prod.fst).flatten).map recordRow
      = ex.flatMap (fun e => e.1.map (fun rec => recordRow rec)) := by
  induction ex with
  | nil => rfl
  | cons e rest ih => simp [ih]

/-! ## Branch characterizations of `build_table` -/

theorem mkDataFrame_ok {recs : List Json} {t : Table}
    (h : mkDataFrame recs = .ok t) :
    t = ⟨colUnion (recs.map recordRow), recs.map recordRow⟩ := by
  unfold mkDataFrame at h
  split at h
  · simp only [Except.ok.injEq] at h
    exact h.symm
  · exact absurd h (by simp)

theorem json_normalize_flat_ok {docs : List Json} {t : Table}
    (h : json_normalize_flat docs = .ok t) :
    t = ⟨colUnion (docs.map (fun d => nested_to_record "" 0 d.kvs)),
         docs.map (fun d => nested_to_record "" 0 d.kvs)⟩ := by
  unfold json_normalize_flat at h
  split at h
  · simp only [Except.ok.injEq] at h
    exact h.symm
  · exact absurd h (by simp)

theorem json_normalize_rp_ok {docs : List Json} {rp : String}
    {meta : List String} {t : Table}
    (hok : json_normalize_rp docs rp meta = .ok t) :
    t.rows = docs.flatMap (docRowsRP rp meta) ∧
    t.cols = meta.foldl addCol (colUnion (docs.flatMap (docRowsRP rp []))) := by
  unfold json_normalize_rp at hok
  cases hex : extractDocs rp meta docs with
  | error e =>
      rw [hex] at hok
      simp only [bind, Except.bind] at hok
      exact Except.noConfusion hok
  | ok ex =>
      rw [hex] at hok
      simp only [bind, Except.bind] at hok
      cases hdf : mkDataFrame (ex.map Prod.fst).flatten with
      | error e =>
          rw [hdf] at hok
          simp only [Except.bind] at hok
          exact Except.noConfusion hok
      | ok t0 =>
          rw [hdf] at hok
          simp only [Except.bind, pure, Except.pure, Except.ok.injEq] at hok
          have ht0 := mkDataFrame_ok hdf
          rw [ht0, flatten_map_recordRow ex] at hok
          have hfold := assign_fold meta ex (fun _ rec => recordRow rec)
            (colUnion (ex.flatMap (fun e => e.1.map (fun rec => recordRow rec))))
          rw [hfold] at hok
          rw [← hok]
          constructor
          · exact extract_flatMap_congr hex _ (docRowsRP rp meta)
              (fun doc recs mp h1 h2 => by
                unfold docRowsRP
                rw [h1]
                apply List.map_congr_left
                intro rec _
                apply foldl_congr_mem
                intro m hm acc
                rw [pullMetas_ok h2,
                  lookup_map_pair meta (fun m => (doc.lookup m).getD Json.null) m hm]
                rfl)
          · have hbase : ex.flatMap (fun e => e.1.map (fun rec => recordRow rec))
                = docs.flatMap (docRowsRP rp []) :=
              extract_flatMap_congr hex _ (docRowsRP rp [])
                (fun doc recs mp h1 _ => by
                  unfold docRowsRP
                  rw [h1]
                  simp)
            rw [hbase]

theorem mem_docRowsRP {rp : String} {meta : List String} {doc : Json}
    {row : List (String × Json)} :
    row ∈ docRowsRP rp meta doc ↔
      ∃ recs, pullRecords rp doc = .ok recs ∧ ∃ rec ∈ recs,
        row = meta.foldl
          (fun r m => dictInsert r m ((doc.lookup m).getD Json.null))
          (recordRow rec) := by
  unfold docRowsRP
  cases h : pullRecords rp doc with
  | ok recs => simp [List.mem_map, eq_comm]
  | error e => simp

theorem docRowsRP_base (rp : String) (meta : List String) (doc : Json) :
    docRowsRP rp meta doc = (docRowsRP rp [] doc).map
      (fun row => meta.foldl
        (fun r m => dictInsert r m ((doc.lookup m).getD Json.null)) row) := by
  unfold docRowsRP
  cases h : pullRecords rp doc with
  | ok recs => simp [List.map_map]
  | error e => simp

theorem rowKeys_filter (row : List (String × Json)) (p : String → Bool) :
    rowKeys (row.filter (fun kv => p kv.1)) = (rowKeys row).filter p := by
  induction row with
  | nil => rfl
  | cons kv rest ih =>
      by_cases h : p kv.1 = true
      · simp only [rowKeys, List.map_cons, List.filter_cons, h, if_true]
        simpa [rowKeys] using ih
      · simp only [rowKeys, List.map_cons, List.filter_cons, h]
        simpa [rowKeys] using ih

theorem flatMap_singleton_map {α β : Type} (l : List α) (f : α → β) :
    l.flatMap (fun a => [f a]) = l.map f := by
  induction l with
  | nil => rfl
  | cons a rest ih => simp [ih]

/-- The `if val in dframe.columns: drop` loop over the dict-classified
columns behaves, on a table where the keys of every row live in its column
index, as one simultaneous filter. -/
theorem dropCols_fold (vs : List String) :
    ∀ (t : Table), (∀ row ∈ t.rows, ∀ c ∈ rowKeys row, c ∈ t.cols) →
      vs.foldl (fun t v => if v ∈ t.cols then dropCol t v else t) t
      = ⟨t.cols.filter (fun c => c ∉ vs),
         t.rows.map (fun row => row.filter (fun kv => kv.1 ∉ vs))⟩ := by
  induction vs with
  | nil =>
      intro t hsub
      simp
  | cons v rest ih =>
      intro t hsub
      simp only [List.foldl_cons]
      by_cases hv : v ∈ t.cols
      · rw [if_pos hv]
        have hsub2 : ∀ row ∈ (dropCol t v).rows, ∀ c ∈ rowKeys row,
            c ∈ (dropCol t v).cols := by
          intro row hrow c hc
          unfold dropCol at hrow hc ⊢
          simp only [List.mem_map] at hrow
          obtain ⟨row0, hrow0, rfl⟩ := hrow
          rw [rowKeys_filter row0 (fun x => decide (x ≠ v))] at hc
          rw [List.mem_filter] at hc ⊢
          exact ⟨hsub row0 hrow0 c hc.1, hc.2⟩
        rw [ih (dropCol t v) hsub2]
        unfold dropCol
        have hpt : ∀ a : String,
            (decide (a ∉ rest) && decide (a ≠ v)) = decide (a ∉ v :: rest) := by
          intro a
          by_cases h1 : a = v <;> by_cases h2 : a ∈ rest <;> simp [h1, h2]
        congr 1
        · rw [List.filter_filter]
          congr 1
          funext a
          exact hpt a
        · rw [List.map_map]
          apply List.map_congr_left
          intro row _
          show (row.filter (fun kv => decide (kv.1 ≠ v))).filter
              (fun kv => decide (kv.1 ∉ rest)) = _
          rw [List.filter_filter]
          apply List.filter_congr
          intro kv _
          exact hpt kv.1
      · rw [if_neg hv]
        rw [ih t hsub]
        congr 1
        · apply List.filter_congr
          intro a ha
          have hne : a ≠ v := fun h => hv (h ▸ ha)
          simp [hne]
        · apply List.map_congr_left
          intro row hrow
          apply List.filter_congr
          intro kv hkv
          have hne : kv.1 ≠ v := by
            intro h
            exact hv (h ▸ hsub row hrow kv.1 (List.mem_map.mpr ⟨kv, hkv, rfl⟩))
          simp [hne]

/-! ## Filtered-lookup lemmas for attribute attachment -/

theorem lookup_filter_ne {β : Type} (l : List (String × β)) (k s : String)
    (hk : k ≠ s) :
    (l.filter (fun kv => kv.1 ≠ s)).lookup k = l.lookup k := by
  induction l with
  | nil => rfl
  | cons kv rest ih =>
      by_cases h : kv.1 = s
      · rw [List.filter_cons_of_neg (by simp [h])]
        rw [ih]
        simp only [List.lookup]
        have hb : (k == kv.1) = false := by
          rw [h]
          exact beq_eq_false_iff_ne.mpr hk
        rw [hb]
      · rw [List.filter_cons_of_pos (by simp [h])]
        simp only [List.lookup]
        cases hb : k == kv.1
        · exact ih
        · rfl

theorem lookup_filter_self {β : Type} (l : List (String × β)) (s : String) :
    (l.filter (fun kv => kv.1 ≠ s)).lookup s = none := by
  induction l with
  | nil => rfl
  | cons kv rest ih =>
      by_cases h : kv.1 = s
      · rw [List.filter_cons_of_neg (by simp [h])]
        exact ih
      · rw [List.filter_cons_of_pos (by simp [h])]
        simp only [List.lookup]
        have hb : (s == kv.1) = false :=
          beq_eq_false_iff_ne.mpr (fun hh => h hh.symm)
        rw [hb]
        exact ih

/-! ## Claim theorems -/

/-- Claim C2: supplying both `mod_since` and `only_mod_since` to the
request builder of the freshness protocol raises `ArgumentError` (named
`ConfigurationError` by the spec), regardless of the argument values, the
data format or the auth token. -/
theorem C2_mutual_exclusivity (data_format auth_token a b : String) :
    send_http_request_old data_format auth_token (some a) (some b) =
      .error (.argumentError
        "Cannot specify both mod_since and only_mod_since arguments.") := rfl

/-- Claim C3: a response whose status code is neither 200 nor 304 is
passed through unchanged as the raw response dictionary, both by
`send_request` and by the per-endpoint guard of `get_matches`; it is
never normalized into a table. -/
theorem C3_passthrough (data_format : String) (resp : HttpResponse)
    (normalize : String) (index : Option (List String))
    (h200 : resp.code ≠ 200) (_h304 : resp.code ≠ 304) :
    send_request data_format resp normalize index = .raw resp ∧
    get_matches_route data_format resp = .raw resp := by
  constructor
  · unfold send_request
    rw [if_pos (by simp [h200])]
  · unfold get_matches_route
    rw [if_pos (by simp [h200])]

/-- Claim C3 witness: a 403 response is returned raw. -/
theorem C3_witness :
    send_request "dataframe" resp403 "table" none = .raw resp403 ∧
    get_matches_route "dataframe" resp403 = .raw resp403 :=
  C3_passthrough "dataframe" resp403 "table" none (by decide) (by decide)

/-- Claim C4: a 304 "not modified" response built with exactly one of
the two conditional timestamps yields a table with exactly one synthetic
row holding one column, named after the conditional header that fired
and valued at the echoed timestamp string. -/
theorem C4_not_modified_table (resp : Response304) (ts : String)
    (hcode : resp.code = 304) (htext : resp.text = none)
    (hone : (resp.mod_since = some ts ∧ resp.only_mod_since = none) ∨
            (resp.mod_since = none ∧ resp.only_mod_since = some ts)) :
    Dframe_init resp =
      .notModified
        ⟨[conditional_header resp],
         [[(conditional_header resp, Json.str ts)]]⟩ resp := by
  unfold Dframe_init conditional_header
  rw [if_pos ⟨hcode, htext⟩]
  rcases hone with ⟨h1, _⟩ | ⟨h1, h2⟩
  · rw [h1]
    rfl
  · rw [h1, h2]
    rfl

/-- Claim C4 witness: the spec timestamp echoed under
`If-Modified-Since`. -/
theorem C4_witness :
    Dframe_init notMod304 =
      .notModified
        ⟨[conditional_header notMod304],
         [[(conditional_header notMod304,
            Json.str "Sun, 01 Jan 2017 00:00:00 GMT")]]⟩ notMod304 :=
  C4_not_modified_table notMod304 "Sun, 01 Jan 2017 00:00:00 GMT" rfl rfl
    (Or.inl ⟨rfl, rfl⟩)

/-- Claim C5 counterexample: a 304 response carrying BOTH conditional
timestamps does not raise; `Dframe.__init__` silently prefers
`mod_since` and builds the `If-Modified-Since` table, contradicting the
claim that `InconsistentStateError` is raised when both are present. -/
theorem C5_counterexample :
    Dframe_init bothSet304 =
      .notModified
        ⟨["If-Modified-Since"], [[("If-Modified-Since", Json.str "A")]]⟩
        bothSet304 ∧
    Dframe_init bothSet304 ≠ .error PyError.assertionError := by
  constructor
  · rfl
  · intro h
    rw [show Dframe_init bothSet304 =
        .notModified
          ⟨["If-Modified-Since"], [[("If-Modified-Since", Json.str "A")]]⟩
          bothSet304 from rfl] at h
    exact DframeResult.noConfusion h

/-- Claim C5 amended: on a 304 response with no body, `Dframe.__init__`
determines the fired header from which recorded timestamp is set,
`mod_since` taking precedence when both are set, and fails with
`AssertionError` (named `InconsistentStateError` by the spec) only when neither
is set. -/
theorem C5_amended (resp : Response304)
    (hcode : resp.code = 304) (htext : resp.text = none) :
    (resp.mod_since = none → resp.only_mod_since = none →
      Dframe_init resp = .error PyError.assertionError) ∧
    (∀ ts, resp.mod_since = some ts →
      Dframe_init resp =
        .notModified
          ⟨["If-Modified-Since"], [[("If-Modified-Since", Json.str ts)]]⟩
          resp) ∧
    (∀ ts, resp.mod_since = none → resp.only_mod_since = some ts →
      Dframe_init resp =
        .notModified
          ⟨["FMS-OnlyModifiedSince"],
           [[("FMS-OnlyModifiedSince", Json.str ts)]]⟩ resp) := by
  refine ⟨fun h1 h2 => ?_, fun ts h1 => ?_, fun ts h1 h2 => ?_⟩
  · unfold Dframe_init
    rw [if_pos ⟨hcode, htext⟩, h1, h2]
  · unfold Dframe_init
    rw [if_pos ⟨hcode, htext⟩, h1]
  · unfold Dframe_init
    rw [if_pos ⟨hcode, htext⟩, h1, h2]

/-- Claim C5 witness: neither timestamp recorded fails the `assert`. -/
theorem C5_witness :
    Dframe_init neither304 = .error PyError.assertionError :=
  (C5_amended neither304 rfl rfl).1 rfl rfl

/-- Claim C6: the Scalar Flattener emits `(label, null)` for an empty
dict or empty list value and recurses no further; in particular
flattening `{"a": {}, "b": []}` yields exactly
`[("a", null), ("b", null)]` in that order. -/
theorem C6_empty_terminal :
    (∀ key, append_scaler key (Json.obj []) =
      [(replace_spaces key, Json.null)]) ∧
    (∀ key, append_scaler key (Json.arr []) =
      [(replace_spaces key, Json.null)]) ∧
    build_single_column (Json.obj [("a", Json.obj []), ("b", Json.arr [])]) =
      .ok [("a", Json.null), ("b", Json.null)] := by
  refine ⟨fun key => ?_, fun key => ?_, ?_⟩
  · simp [append_scaler]
  · simp [append_scaler]
  · simp [build_single_column, append_scaler, replace_spaces]

/-- Claim C7: the Table Normalizer entry point fails on every bare
scalar JSON document: `None`, booleans and numbers raise `TypeError` at
`jdata[0]`; the empty string raises `IndexError` there; any other
string survives to `read_json`, which raises `ValueError`.  (The
spec taxonomy names this shape failure `MalformedPayloadError`.) -/
theorem C7_scalar_payload_errors :
    build_table Json.null = .error PyError.typeError ∧
    (∀ b, build_table (Json.bool b) = .error PyError.typeError) ∧
    (∀ n, build_table (Json.num n) = .error PyError.typeError) ∧
    (∀ s, build_table (Json.str s) =
      if s.data = [] then .error PyError.indexError
      else .error PyError.valueError) :=
  ⟨rfl, fun _ => rfl, fun _ => rfl, fun _ => rfl⟩

/-- Claim C9: Attribute Attachment binds as metadata exactly the
entries of the response dictionary except `"text"`, preserving the value
of every other entry; the table data (columns and rows) is returned
untouched, so no metadata key becomes a data column; the response is
only read. -/
theorem C9_metadata_isolation (t : Table) (resp : HttpResponse) :
    (attach_attributes t resp).table = t ∧
    (attach_attributes t resp).table.cols = t.cols ∧
    (attach_attributes t resp).attr.lookup "text" = none ∧
    (∀ k, k ≠ "text" →
      (attach_attributes t resp).attr.lookup k = (respFields resp).lookup k) ∧
    (∀ kv ∈ (attach_attributes t resp).attr,
      kv ∈ respFields resp ∧ kv.1 ≠ "text") ∧
    (∀ kv ∈ respFields resp, kv.1 ≠ "text" →
      kv ∈ (attach_attributes t resp).attr) := by
  refine ⟨rfl, rfl, ?_, fun k hk => ?_, fun kv hkv => ?_, fun kv hkv hne => ?_⟩
  · exact lookup_filter_self (respFields resp) "text"
  · exact lookup_filter_ne (respFields resp) k "text" hk
  · unfold attach_attributes at hkv
    rw [List.mem_filter] at hkv
    exact ⟨hkv.1, by simpa using hkv.2⟩
  · unfold attach_attributes
    rw [List.mem_filter]
    exact ⟨hkv, by simpa using hne⟩

/-- Claim C9 witness: instantiated at a concrete table and response. -/
theorem C9_witness :
    (attach_attributes sampleTable resp403).table = sampleTable ∧
    (attach_attributes sampleTable resp403).table.cols = sampleTable.cols ∧
    (attach_attributes sampleTable resp403).attr.lookup "text" = none ∧
    (∀ k, k ≠ "text" →
      (attach_attributes sampleTable resp403).attr.lookup k =
        (respFields resp403).lookup k) ∧
    (∀ kv ∈ (attach_attributes sampleTable resp403).attr,
      kv ∈ respFields resp403 ∧ kv.1 ≠ "text") ∧
    (∀ kv ∈ respFields resp403, kv.1 ≠ "text" →
      kv ∈ (attach_attributes sampleTable resp403).attr) :=
  C9_metadata_isolation sampleTable resp403

/-- Claim C10: an invalid `mod_since` date string does not fail the
request build: `httpdate_to_datetime` returns `False` (after a
`UserWarning`), the `If-Modified-Since` header is silently omitted, and
the request proceeds with just the base headers. -/
theorem C10_invalid_date_ignored (data_format auth_token s : String)
    (hinvalid : httpdate_to_datetime s true = none) :
    send_http_request_old data_format auth_token (some s) none =
      .ok ([("Accept",
             if data_format = "xml" then "application/xml"
             else "application/schedule.json"),
            ("Authorization", auth_token)],
           [httpdateWarning]) := by
  unfold send_http_request_old
  rw [if_neg (by simp)]
  simp only [hinvalid]

/-- Claim C10 witness: `"not-a-date"` is silently ignored. -/
theorem C10_witness :
    send_http_request_old "json" "token" (some "not-a-date") none =
      .ok ([("Accept",
             if "json" = "xml" then "application/xml"
             else "application/schedule.json"),
            ("Authorization", "token")],
           [httpdateWarning]) :=
  C10_invalid_date_ignored "json" "token" "not-a-date" (by decide)

/-! ## Helper facts for the normalizer claims -/

theorem recordRow_eq_kvs {e : Json} (h : e.isObj = true) :
    recordRow e = e.kvs := by
  cases e <;> first | rfl | simp [Json.isObj] at h

theorem build_table_docs_classes (docs : List Json) (d : Json)
    (hd : d.isObj = true) :
    build_table_docs docs d =
      if (classify d.kvs).list_cols.length = 1 then
        json_normalize_rp docs ((classify d.kvs).list_cols.headD "")
          (classify d.kvs).scaler_cols
      else if (classify d.kvs).dict_cols ≠ [] then do
        let t ← json_normalize_flat docs
        pure ((classify d.kvs).dict_cols.foldl
          (fun t v => if v ∈ t.cols then dropCol t v else t) t)
      else mkDataFrame docs := by
  unfold build_table_docs
  rw [hd]
  rfl

theorem headClasses_cons {d : Json} {ds : List Json} (hd : d.isObj = true) :
    headClasses (d :: ds) = classify d.kvs := by
  show (if d.isObj = true then classify d.kvs
    else ⟨[], [], []⟩ : KeyClasses) = classify d.kvs
  rw [hd]
  rfl

/-- Claim C1: a JSON document that is a single object with exactly one
key whose value is a list of N objects normalizes to a table with
exactly N rows, one per list element in order, whose column set equals
the union of the keys of those elements.  (No further single-key-single-list
shape can apply after the unwrap: the document becomes a list.) -/
theorem C1_single_key_list_unwrap (k : String) (elems : List Json)
    (hobj : ∀ e ∈ elems, e.isObj = true) :
    ∃ t, build_table (Json.obj [(k, Json.arr elems)]) = .ok t ∧
      t.rows = elems.map Json.kvs ∧
      t.rows.length = elems.length ∧
      (∀ c, c ∈ t.cols ↔ ∃ e ∈ elems, c ∈ e.keys) := by
  have hpull : pullRecords k (Json.obj [(k, Json.arr elems)]) = .ok elems := by
    unfold pullRecords
    simp [List.lookup]
  have hex : extractDocs k [] [Json.obj [(k, Json.arr elems)]] =
      .ok [(elems, [])] := by
    unfold extractDocs
    rw [hpull]
    rfl
  have hall : (elems.all Json.isObj || elems.all Json.isArr
      || elems.all Json.isScalar) = true := by
    rw [List.all_eq_true.mpr hobj]
    rfl
  have hdf : mkDataFrame elems =
      .ok ⟨colUnion (elems.map recordRow), elems.map recordRow⟩ := by
    unfold mkDataFrame
    rw [if_pos hall]
  have hrp : json_normalize_rp [Json.obj [(k, Json.arr elems)]] k [] =
      .ok ⟨colUnion (elems.map recordRow), elems.map recordRow⟩ := by
    unfold json_normalize_rp
    rw [hex]
    simp only [bind, Except.bind]
    rw [show (([(elems, ([] : List (String × Json)))].map Prod.fst).flatten)
        = elems from by simp]
    rw [hdf]
    rfl
  have hclass : classify (Json.obj [(k, Json.arr elems)]).kvs =
      ⟨[], [], [k]⟩ := by
    simp [classify, Json.kvs, Json.isScalar, Json.isObj, Json.isArr]
  have hmain : build_table (Json.obj [(k, Json.arr elems)]) =
      .ok ⟨colUnion (elems.map recordRow), elems.map recordRow⟩ := by
    show build_table_docs [Json.obj [(k, Json.arr elems)]]
      (Json.obj [(k, Json.arr elems)]) = _
    rw [build_table_docs_classes [Json.obj [(k, Json.arr elems)]]
      (Json.obj [(k, Json.arr elems)]) rfl, hclass]
    exact hrp
  have hrowseq : elems.map recordRow = elems.map Json.kvs :=
    List.map_congr_left (fun e he => recordRow_eq_kvs (hobj e he))
  refine ⟨⟨colUnion (elems.map recordRow), elems.map recordRow⟩, hmain,
    hrowseq, by simp, fun c => ?_⟩
  show c ∈ colUnion (elems.map recordRow) ↔ _
  rw [hrowseq, mem_colUnion]
  constructor
  · rintro ⟨row, hrow, hc⟩
    obtain ⟨e, he, rfl⟩ := List.mem_map.mp hrow
    exact ⟨e, he, hc⟩
  · rintro ⟨e, he, hc⟩
    exact ⟨e.kvs, List.mem_map.mpr ⟨e, he, rfl⟩, hc⟩

/-- Claim C1 witness: the example of the spec,
`{"teams": [{"id":1,"name":"A"},{"id":2,"name":"B","note":"x"}]}`. -/
theorem C1_witness :
    (∀ e ∈ teamsElems, e.isObj = true) ∧
    ∃ t, build_table (Json.obj [("teams", Json.arr teamsElems)]) = .ok t ∧
      t.rows = teamsElems.map Json.kvs ∧
      t.rows.length = teamsElems.length ∧
      (∀ c, c ∈ t.cols ↔ ∃ e ∈ teamsElems, c ∈ e.keys) :=
  ⟨by decide, C1_single_key_list_unwrap "teams" teamsElems (by decide)⟩

/-- Claim C8 counterexample: on `[{"a": 1, "b": []}]` the normalizer
takes the record-path branch with an empty record list; the broadcast
meta column `a` exists while the table has no rows, so the column set
strictly exceeds the union of the key sets of the rows (which the claim says
it equals). -/
theorem C8_counterexample :
    build_table (Json.arr emptyRecordDocs) = .ok ⟨["a"], []⟩ ∧
    ¬ (∀ c ∈ (⟨["a"], []⟩ : Table).cols,
        ∃ row ∈ (⟨["a"], []⟩ : Table).rows, c ∈ rowKeys row) := by
  constructor
  · rfl
  · intro h
    obtain ⟨row, hrow, _⟩ := h "a" (by simp)
    simp at hrow

/-- Claim C8 amended: for every table the normalizer produces from a
list of JSON objects, the key set of each row is contained in the column
set, the column set contains the union of the key sets of all rows — with
equality whenever the table has at least one row (a record-path table
whose record lists are all empty keeps broadcast meta columns with no
rows) — rows missing a column read back as null, and the rows are the
concatenation, in document order, of the row block of each document. -/
theorem C8_amended (docs : List Json) (t : Table)
    (hobj : ∀ d ∈ docs, d.isObj = true)
    (hok : build_table (Json.arr docs) = .ok t) :
    (∀ row ∈ t.rows, ∀ c ∈ rowKeys row, c ∈ t.cols) ∧
    (t.rows ≠ [] → ∀ c ∈ t.cols, ∃ row ∈ t.rows, c ∈ rowKeys row) ∧
    (∀ row ∈ t.rows, ∀ c, c ∉ rowKeys row → rowCell row c = Json.null) ∧
    t.rows = docs.flatMap (docRowBlock (headClasses docs)) := by
  have hnull : ∀ row ∈ t.rows, ∀ c, c ∉ rowKeys row →
      rowCell row c = Json.null := by
    intro row _ c hc
    unfold rowCell
    rw [lookup_eq_none_of_not_mem hc]
    rfl
  cases docs with
  | nil => exact Except.noConfusion hok
  | cons d ds =>
      have hd : d.isObj = true := hobj d (by simp)
      have hok2 : build_table_docs (d :: ds) d = .ok t := hok
      rw [build_table_docs_classes (d :: ds) d hd] at hok2
      rw [headClasses_cons hd]
      by_cases h1 : (classify d.kvs).list_cols.length = 1
      · rw [if_pos h1] at hok2
        obtain ⟨hrows, hcols⟩ := json_normalize_rp_ok hok2
        have hblock : docRowBlock (classify d.kvs) =
            docRowsRP ((classify d.kvs).list_cols.headD "")
              (classify d.kvs).scaler_cols := by
          funext doc
          unfold docRowBlock
          rw [if_pos h1]
        refine ⟨?_, ?_, hnull, by rw [hrows, hblock]⟩
        · intro row hrow c hc
          rw [hrows] at hrow
          rw [hcols, mem_foldl_addCol]
          rw [List.mem_flatMap] at hrow
          obtain ⟨doc, hdoc, hrowdoc⟩ := hrow
          rw [docRowsRP_base ((classify d.kvs).list_cols.headD "")
            (classify d.kvs).scaler_cols doc] at hrowdoc
          obtain ⟨row0, hrow0, rfl⟩ := List.mem_map.mp hrowdoc
          rw [mem_rowKeys_metaFold (classify d.kvs).scaler_cols
            (fun m => (doc.lookup m).getD Json.null) row0] at hc
          rcases hc with hc | hc
          · exact Or.inl ((mem_colUnion _).mpr
              ⟨row0, List.mem_flatMap.mpr ⟨doc, hdoc, hrow0⟩, hc⟩)
          · exact Or.inr hc
        · intro hne c hcol
          rw [hcols, mem_foldl_addCol] at hcol
          rcases hcol with hcol | hcol
          · obtain ⟨row0, hrow0B, hc0⟩ := (mem_colUnion _).mp hcol
            obtain ⟨doc, hdoc, hrow0⟩ := List.mem_flatMap.mp hrow0B
            refine ⟨(classify d.kvs).scaler_cols.foldl
              (fun r m => dictInsert r m ((doc.lookup m).getD Json.null))
              row0, ?_, ?_⟩
            · rw [hrows]
              refine List.mem_flatMap.mpr ⟨doc, hdoc, ?_⟩
              rw [docRowsRP_base ((classify d.kvs).list_cols.headD "")
                (classify d.kvs).scaler_cols doc]
              exact List.mem_map.mpr ⟨row0, hrow0, rfl⟩
            · exact (mem_rowKeys_metaFold (classify d.kvs).scaler_cols
                _ row0).mpr (Or.inl hc0)
          · obtain ⟨row, hrow⟩ := List.exists_mem_of_ne_nil t.rows hne
            refine ⟨row, hrow, ?_⟩
            rw [hrows] at hrow
            rw [List.mem_flatMap] at hrow
            obtain ⟨doc, hdoc, hrowdoc⟩ := hrow
            rw [docRowsRP_base ((classify d.kvs).list_cols.headD "")
              (classify d.kvs).scaler_cols doc] at hrowdoc
            obtain ⟨row0, hrow0, rfl⟩ := List.mem_map.mp hrowdoc
            exact (mem_rowKeys_metaFold (classify d.kvs).scaler_cols
              _ row0).mpr (Or.inr hcol)
      · by_cases h2 : (classify d.kvs).dict_cols ≠ []
        · rw [if_neg h1, if_pos h2] at hok2
          cases hf : json_normalize_flat (d :: ds) with
          | error e =>
              rw [hf] at hok2
              simp only [bind, Except.bind] at hok2
              exact Except.noConfusion hok2
          | ok t0 =>
              rw [hf] at hok2
              simp only [bind, Except.bind, pure, Except.pure,
                Except.ok.injEq] at hok2
              have ht0 := json_normalize_flat_ok hf
              have hsub : ∀ row ∈ (⟨colUnion ((d :: ds).map
                    (fun doc => nested_to_record "" 0 doc.kvs)),
                  (d :: ds).map (fun doc => nested_to_record "" 0 doc.kvs)⟩ :
                    Table).rows,
                  ∀ c ∈ rowKeys row,
                  c ∈ (⟨colUnion ((d :: ds).map
                    (fun doc => nested_to_record "" 0 doc.kvs)),
                  (d :: ds).map (fun doc => nested_to_record "" 0 doc.kvs)⟩ :
                    Table).cols := by
                intro row hrow c hc
                exact (mem_colUnion _).mpr ⟨row, hrow, hc⟩
              rw [ht0, dropCols_fold (classify d.kvs).dict_cols _ hsub] at hok2
              subst hok2
              have hblock2 : docRowBlock (classify d.kvs) =
                  fun doc => [(nested_to_record "" 0 doc.kvs).filter
                    (fun kv => kv.1 ∉ (classify d.kvs).dict_cols)] := by
                funext doc
                unfold docRowBlock
                rw [if_neg h1, if_pos h2]
              refine ⟨?_, ?_, hnull, ?_⟩
              · intro row hrow c hc
                obtain ⟨row0, hrow0, rfl⟩ := List.mem_map.mp hrow
                rw [rowKeys_filter row0
                  (fun x => decide (x ∉ (classify d.kvs).dict_cols))] at hc
                rw [List.mem_filter] at hc
                exact List.mem_filter.mpr
                  ⟨(mem_colUnion _).mpr ⟨row0, hrow0, hc.1⟩, hc.2⟩
              · intro _ c hcol
                rw [List.mem_filter] at hcol
                obtain ⟨row0, hrow0, hc0⟩ := (mem_colUnion _).mp hcol.1
                refine ⟨row0.filter
                  (fun kv => kv.1 ∉ (classify d.kvs).dict_cols),
                  List.mem_map.mpr ⟨row0, hrow0, rfl⟩, ?_⟩
                rw [rowKeys_filter row0
                  (fun x => decide (x ∉ (classify d.kvs).dict_cols))]
                exact List.mem_filter.mpr ⟨hc0, hcol.2⟩
              · rw [hblock2, flatMap_singleton_map, List.map_map]
                rfl
        · rw [if_neg h1, if_neg h2] at hok2
          have ht := mkDataFrame_ok hok2
          subst ht
          have hblock3 : docRowBlock (classify d.kvs) =
              fun doc => [recordRow doc] := by
            funext doc
            unfold docRowBlock
            rw [if_neg h1, if_neg h2]
          refine ⟨?_, ?_, hnull, ?_⟩
          · intro row hrow c hc
            exact (mem_colUnion _).mpr ⟨row, hrow, hc⟩
          · intro _ c hcol
            exact (mem_colUnion _).mp hcol
          · rw [hblock3, flatMap_singleton_map]

/-- Claim C8 witness: `[{"a": 7, "b": [{"x": 1}, {"x": 2}]}]` produces
two rows with columns `x` and `a`. -/
theorem C8_witness :
    (∀ row ∈ (⟨["x", "a"],
        [[("x", Json.num 1), ("a", Json.num 7)],
         [("x", Json.num 2), ("a", Json.num 7)]]⟩ : Table).rows,
      ∀ c ∈ rowKeys row,
        c ∈ (⟨["x", "a"],
          [[("x", Json.num 1), ("a", Json.num 7)],
           [("x", Json.num 2), ("a", Json.num 7)]]⟩ : Table).cols) ∧
    ((⟨["x", "a"],
        [[("x", Json.num 1), ("a", Json.num 7)],
         [("x", Json.num 2), ("a", Json.num 7)]]⟩ : Table).rows ≠ [] →
      ∀ c ∈ (⟨["x", "a"],
          [[("x", Json.num 1), ("a", Json.num 7)],
           [("x", Json.num 2), ("a", Json.num 7)]]⟩ : Table).cols,
        ∃ row ∈ (⟨["x", "a"],
          [[("x", Json.num 1), ("a", Json.num 7)],
           [("x", Json.num 2), ("a", Json.num 7)]]⟩ : Table).rows,
          c ∈ rowKeys row) ∧
    (∀ row ∈ (⟨["x", "a"],
        [[("x", Json.num 1), ("a", Json.num 7)],
         [("x", Json.num 2), ("a", Json.num 7)]]⟩ : Table).rows,
      ∀ c, c ∉ rowKeys row → rowCell row c = Json.null) ∧
    (⟨["x", "a"],
        [[("x", Json.num 1), ("a", Json.num 7)],
         [("x", Json.num 2), ("a", Json.num 7)]]⟩ : Table).rows =
      rpDocs.flatMap (docRowBlock (headClasses rpDocs)) :=
  C8_amended rpDocs
    ⟨["x", "a"],
     [[("x", Json.num 1), ("a", Json.num 7)],
      [("x", Json.num 2), ("a", Json.num 7)]]⟩
    (by decide) rfl

end Tbap
